import Mathlib

/-!
Verification of the mytool terminal AI client (src/main.go) against its
natural-language specification.

The program is embedded shallowly:

* Go strings are modeled as `List Char` (`GoStr`); the string helpers
  (`goHasPrefix`, `goIndex`, `goSplitN`, `goTrimSpace`, `goReplaceFirst`,
  ...) mirror the corresponding functions of Go's `strings` package as
  used by the source, restricted to the ASCII inputs the program deals in.
* The filesystem is a flat association list from absolute paths to file
  contents (`FS`); directory creation (`os.MkdirAll`) is a no-op in this
  flat model and file writes are assumed to succeed, matching the source,
  which ignores every write error.
* The mutable process globals read by the tool-call core (`currentMode`,
  `currentDir`, `undoStack`, `memory`) together with the filesystem form
  the state `St`.  Globals no modeled code path reads (`totalTokens`,
  `totalCost`, `projectType`, `sessionID`, ...) are omitted.
* External interactions are visible as an effect trace (`Eff`): spawning
  an external process (`exec.Command`) and blocking on an interactive
  y/N confirmation read.  Outputs that come from outside the process
  (subprocess output, the answer typed at a prompt, HTTP bodies,
  directory listings) are supplied as oracle inputs (`ToolOracle`).
-/

/-- Go strings, as byte/character sequences. -/
abbrev GoStr := List Char

/-- Shorthand for writing `GoStr` literals. -/
def gs (s : String) : GoStr := s.toList

/-! ### Go `strings` package primitives used by the source -/

/-- Go `strings.HasPrefix`. -/
def goHasPrefix : GoStr → GoStr → Bool
  | _, [] => true
  | [], _ :: _ => false
  | a :: s, b :: p => a == b && goHasPrefix s p

/-- Go `strings.Index`: position of the first occurrence of `sub` in `s`,
`none` standing for Go's `-1`. -/
def goIndex (s sub : GoStr) : Option Nat :=
  if goHasPrefix s sub then some 0
  else
    match s with
    | [] => none
    | _ :: t => (goIndex t sub).map (· + 1)

/-- Go `strings.Contains`. -/
def goContains (s sub : GoStr) : Bool := (goIndex s sub).isSome

/-- Go `strings.SplitN` for a non-empty separator: at most `n` pieces,
the last piece holding the unsplit remainder. -/
def goSplitN (s sep : GoStr) : Nat → List GoStr
  | 0 => []
  | 1 => [s]
  | n + 2 =>
    match goIndex s sep with
    | none => [s]
    | some i => s.take i :: goSplitN (s.drop (i + sep.length)) sep (n + 1)

/-- Whitespace recognized by Go `unicode.IsSpace`, restricted to the
ASCII range the program's protocol uses. -/
def goIsSpace (c : Char) : Bool :=
  c == ' ' || c == '\t' || c == '\n' || c == '\x0b' || c == '\x0c' || c == '\r'

/-- Go `strings.TrimSpace`. -/
def goTrimSpace (s : GoStr) : GoStr :=
  ((s.dropWhile goIsSpace).reverse.dropWhile goIsSpace).reverse

/-- Go `strings.Replace(s, old, new, 1)`: replace the first occurrence only. -/
def goReplaceFirst (s old new : GoStr) : GoStr :=
  match goIndex s old with
  | none => s
  | some i => s.take i ++ new ++ s.drop (i + old.length)

/-- Go `strings.ToLower`, restricted to ASCII (the program only compares
against the literal "y"). -/
def goToLower (s : GoStr) : GoStr :=
  s.map fun c => if 'A' ≤ c && c ≤ 'Z' then Char.ofNat (c.toNat + 32) else c

/-- Split a `GoStr` at every occurrence of a single character, like Go
`strings.Split(s, string(sep))`; splitting the empty string yields `[""]`. -/
def goSplitChar (sep : Char) : GoStr → List GoStr
  | [] => [[]]
  | c :: t =>
    match goSplitChar sep t with
    | [] => [[]]
    | r :: rs => if c == sep then [] :: r :: rs else (c :: r) :: rs

/-- Go `strings.Join` with separator `"\n"`. -/
def joinNl (xs : List GoStr) : GoStr := (xs.intersperse (gs "\n")).flatten

/-- Decimal rendering of a natural number (Go `%d`). -/
def natStr (n : Nat) : GoStr := gs (Nat.repr n)

/-- Left-pad with spaces to width 4 (Go `%4d` on a line number). -/
def padLeft4 (n : Nat) : GoStr :=
  let s := natStr n
  List.replicate (4 - s.length) ' ' ++ s

/-! ### ANSI color constants (src/main.go lines 30-47) -/

def colorReset : GoStr := gs "\x1b[0m"
def colorRed : GoStr := gs "\x1b[31m"
def colorGreen : GoStr := gs "\x1b[32m"
def colorYellow : GoStr := gs "\x1b[33m"
def colorBlue : GoStr := gs "\x1b[34m"
def colorCyan : GoStr := gs "\x1b[36m"
def colorGray : GoStr := gs "\x1b[90m"

/-! ### Path resolution (filepath.Clean / Join / IsAbs, Unix semantics) -/

/-- One pass of `filepath.Clean`'s element processing: `""` and `"."`
elements vanish, `".."` pops the previous element (or is kept at the
start of a relative path, or dropped at the root of a rooted path).
`acc` holds the kept elements in reverse. -/
def cleanComps (rooted : Bool) : List GoStr → List GoStr → List GoStr
  | [], acc => acc.reverse
  | c :: rest, acc =>
    if c = [] ∨ c = gs "." then cleanComps rooted rest acc
    else if c = gs ".." then
      match acc with
      | [] =>
        if rooted then cleanComps rooted rest []
        else cleanComps rooted rest [gs ".."]
      | a :: tl =>
        if a = gs ".." then cleanComps rooted rest (c :: a :: tl)
        else cleanComps rooted rest tl
    else cleanComps rooted rest (c :: acc)

/-- Go `filepath.Clean` for Unix paths. -/
def goClean (path : GoStr) : GoStr :=
  if path = [] then gs "."
  else
    let rooted := goHasPrefix path (gs "/")
    let comps := cleanComps rooted (goSplitChar '/' path) []
    if comps = [] then (if rooted then gs "/" else gs ".")
    else (if rooted then gs "/" else []) ++ (comps.intersperse (gs "/")).flatten

/-- Go `filepath.IsAbs` (Unix). -/
def goIsAbs (path : GoStr) : Bool := goHasPrefix path (gs "/")

/-- Go `filepath.Join` of two elements: empty elements are skipped and
the result is Cleaned. -/
def goJoin (a b : GoStr) : GoStr :=
  if a = [] ∧ b = [] then []
  else if a = [] then goClean b
  else if b = [] then goClean a
  else goClean (a ++ gs "/" ++ b)

/-- `resolvePath` (src/main.go lines 1402-1411).  `home` stands for
`os.UserHomeDir()`, `cwd` for the global `currentDir`. -/
def resolvePath (home cwd path : GoStr) : GoStr :=
  let path := if goHasPrefix path (gs "~/") then goJoin home (path.drop 2) else path
  let path := if goIsAbs path then path else goJoin cwd path
  goClean path

/-! ### Filesystem and program state -/

/-- Flat filesystem: association list from absolute path to content. -/
abbrev FS := List (GoStr × GoStr)

/-- `os.ReadFile`: content of the file at `p`, `none` when it does not exist. -/
def fsRead : FS → GoStr → Option GoStr
  | [], _ => none
  | (k, v) :: t, p => if k = p then some v else fsRead t p

/-- `os.WriteFile`: create or overwrite the file at `p`. -/
def fsWrite : FS → GoStr → GoStr → FS
  | [], p, c => [(p, c)]
  | (k, v) :: t, p, c => if k = p then (p, c) :: t else (k, v) :: fsWrite t p c

/-- `os.Remove` of a file. -/
def fsRemove : FS → GoStr → FS
  | [], _ => []
  | (k, v) :: t, p => if k = p then fsRemove t p else (k, v) :: fsRemove t p

/-- `os.OpenFile(..., O_APPEND|O_CREATE|O_WRONLY)` followed by
`WriteString`: append, creating the file when absent. -/
def fsAppend (fs : FS) (p c : GoStr) : FS :=
  fsWrite fs p ((fsRead fs p).getD [] ++ c)

/-- Update-or-insert on the memory map (Go `memory[key] = value`). -/
def memSet : List (GoStr × GoStr) → GoStr → GoStr → List (GoStr × GoStr)
  | [], k, v => [(k, v)]
  | (k0, v0) :: t, k, v =>
    if k0 = k then (k, v) :: t else (k0, v0) :: memSet t k v

/-- The permission mode strings (src/main.go lines 54-58). -/
def ModeAuto : GoStr := gs "auto"
def ModeAsk : GoStr := gs "ask"
def ModeManual : GoStr := gs "manual"

/-- `UndoAction` (src/main.go lines 100-105).  The `Time` field is never
read by any code path and is fixed to `0` here. -/
structure UndoAction where
  type : GoStr
  path : GoStr
  content : GoStr
  time : Nat
deriving DecidableEq

/-- The mutable process state touched by the tool-call core.  Globals no
modeled claim-relevant code reads (token counters, project type, ...)
are omitted. -/
structure St where
  currentMode : GoStr
  currentDir : GoStr
  undoStack : List UndoAction
  memory : List (GoStr × GoStr)
  fs : FS
deriving DecidableEq

/-- Externally observable side effects of an operation handler. -/
inductive Eff where
  /-- An external process was spawned via `exec.Command`; the payload
  records the command line. -/
  | spawn (cmd : GoStr)
  /-- The handler blocked on an interactive y/N confirmation read from
  stdin; the payload is the printed prompt. -/
  | prompt (msg : GoStr)
deriving DecidableEq

/-- Inputs that reach a handler from outside the process: the line typed
at a confirmation prompt, the combined output and error status of a
spawned subprocess, the body of un-modeled external I/O (HTTP bodies,
directory listings, ...), and whether `os.Stat` reports a directory. -/
structure ToolOracle where
  askAnswer : GoStr
  procOut : GoStr
  procErr : Option GoStr
  ioText : GoStr
  statIsDir : Bool
deriving DecidableEq

/-- Result of one operation handler: the result text, the state after,
and the trace of external effects. -/
structure CmdOut where
  result : GoStr
  st : St
  effs : List Eff
deriving DecidableEq

/-! ### Undo ledger (src/main.go lines 1001-1028) -/

/-- The snapshot pushed by `saveForUndo` for raw path `path` in state
`st`: the path is resolved against the *current* directory at snapshot
time, and a file that does not exist is captured as empty content
(`content = ""`), exactly as the source's `content := ""` default. -/
def snapAction (home : GoStr) (st : St) (path : GoStr) : UndoAction :=
  let fullPath := resolvePath home st.currentDir path
  { type := gs "file", path := fullPath
    content := (fsRead st.fs fullPath).getD [], time := 0 }

/-- `saveForUndo` (src/main.go lines 1001-1013): push a pre-mutation
snapshot, then drop the oldest entry if the stack exceeds 20 entries.
The `desc` argument is accepted and ignored, as in the source. -/
def saveForUndo (home path desc : GoStr) (st : St) : St :=
  let stack := st.undoStack ++ [snapAction home st path]
  { st with undoStack := if stack.length > 20 then stack.drop 1 else stack }

/-- `doUndo` (src/main.go lines 1015-1028): pop the most recent snapshot
and restore it — deleting the file when the captured content is empty,
rewriting it otherwise.  Returns the result text with the new state. -/
def doUndo (st : St) : GoStr × St :=
  if st.undoStack = [] then (gs "Nothing to undo", st)
  else
    let action := st.undoStack.getLastD ⟨[], [], [], 0⟩
    let st1 := { st with undoStack := st.undoStack.dropLast }
    if action.content = [] then
      (colorGreen ++ gs "✓ Undone: removed " ++ action.path ++ colorReset,
       { st1 with fs := fsRemove st1.fs action.path })
    else
      (colorGreen ++ gs "✓ Undone: restored " ++ action.path ++ colorReset,
       { st1 with fs := fsWrite st1.fs action.path action.content })

/-! ### Operation handlers (src/main.go lines 1030-1398, 879-905)

Terminal rendering is out of the spec's scope, so `highlightCode` — a
display-only ANSI recoloring — is modeled as the identity and the
language tag derived from the file extension is not computed.  String
building, truncation caps and error branches are embedded faithfully. -/

/-- Renders the numbered lines of `cmdRead`, capping at 200 lines with a
"+N more lines" marker, as in the source loop. -/
def readLines (total : Nat) : Nat → List GoStr → GoStr
  | _, [] => []
  | i, l :: ls =>
    if i ≥ 200 then
      colorGray ++ gs "... +" ++ natStr (total - 200) ++ gs " more lines" ++ colorReset ++ gs "\n"
    else
      colorGray ++ padLeft4 (i + 1) ++ gs "│" ++ colorReset ++ gs " " ++ l ++ gs "\n" ++
        readLines total (i + 1) ls

/-- `cmdRead` (src/main.go lines 1030-1057).  Reading a missing file
yields the Go `os.ReadFile` error text embedded in the result. -/
def cmdRead (home path : GoStr) (st : St) : GoStr :=
  if path = [] then gs "Usage: /read <file>"
  else
    let fullPath := resolvePath home st.currentDir path
    match fsRead st.fs fullPath with
    | none => gs "Error: open " ++ fullPath ++ gs ": no such file or directory"
    | some data =>
      let lines := goSplitChar '\n' data
      colorCyan ++ gs "─── " ++ fullPath ++ gs " (" ++ natStr lines.length ++
        gs " lines) ───" ++ colorReset ++ gs "\n" ++ readLines lines.length 0 lines

/-- `cmdRun` (src/main.go lines 1115-1140): gated by the mode; in ask
mode the prompt is emitted and a non-"y" answer cancels; otherwise the
shell is spawned and its combined output (with a trailing exit-error
line when the command failed) is the result. -/
def cmdRun (command : GoStr) (st : St) (io : ToolOracle) : CmdOut :=
  if command = [] then ⟨gs "Usage: /run <command>", st, []⟩
  else if st.currentMode = ModeManual then
    ⟨colorRed ++ gs "[blocked] Manual mode" ++ colorReset, st, []⟩
  else
    let promptMsg := colorYellow ++ gs "Run:" ++ colorReset ++ gs " " ++ command ++ gs " [y/N] "
    let spawnEff := Eff.spawn (gs "sh -c " ++ command)
    let output := io.procOut ++
      match io.procErr with
      | some e => gs "\n" ++ colorRed ++ gs "Exit: " ++ e ++ colorReset
      | none => []
    if st.currentMode = ModeAsk then
      if goToLower (goTrimSpace io.askAnswer) ≠ gs "y" then
        ⟨gs "Cancelled", st, [Eff.prompt promptMsg]⟩
      else ⟨output, st, [Eff.prompt promptMsg, spawnEff]⟩
    else ⟨output, st, [spawnEff]⟩

/-- `cmdCd` (src/main.go lines 1142-1153): empty path defaults to the
home directory (`os.Getenv("HOME")` and `os.UserHomeDir()` coincide on
Unix and share the `home` parameter); a non-directory target is
rejected; otherwise `currentDir` is updated.  `detectProject()` only
recomputes the unmodeled project label. -/
def cmdCd (home path : GoStr) (st : St) (io : ToolOracle) : CmdOut :=
  let path := if path = [] then home else path
  let newPath := resolvePath home st.currentDir path
  if !io.statIsDir then ⟨gs "Error: not a directory", st, []⟩
  else ⟨gs "→ " ++ newPath, { st with currentDir := newPath }, []⟩

/-- `cmdFind` (src/main.go lines 1155-1171): spawns `find`; the
subprocess output is an oracle input; the trimming, empty-result and
30-line truncation post-processing is embedded. -/
def cmdFind (pattern : GoStr) (st : St) (io : ToolOracle) : CmdOut :=
  if pattern = [] then ⟨gs "Usage: /find <pattern>", st, []⟩
  else
    let spawnEff := Eff.spawn
      (gs "find " ++ st.currentDir ++ gs " -maxdepth 6 -iname *" ++ pattern ++ gs "*")
    let result := goTrimSpace io.procOut
    if result = [] then ⟨gs "No files found", st, [spawnEff]⟩
    else
      let lines := goSplitChar '\n' result
      let result :=
        if lines.length > 30 then
          joinNl (lines.take 30) ++ gs "\n" ++ colorGray ++ gs "+" ++
            natStr (lines.length - 30) ++ gs " more" ++ colorReset
        else result
      ⟨colorGreen ++ gs "Found " ++ natStr lines.length ++ gs ":" ++ colorReset ++
        gs "\n" ++ result, st, [spawnEff]⟩

/-- `cmdGrep` (src/main.go lines 1173-1192): splits the argument into
pattern and optional path, spawns `grep`, post-processes its output. -/
def cmdGrep (home args : GoStr) (st : St) (io : ToolOracle) : CmdOut :=
  let parts := goSplitN args (gs " ") 2
  let pattern := parts.headD []
  let searchPath :=
    if parts.length > 1 then resolvePath home st.currentDir (parts.getD 1 [])
    else st.currentDir
  let spawnEff := Eff.spawn (gs "grep -rn -i " ++ pattern ++ gs " " ++ searchPath)
  let result := goTrimSpace io.procOut
  if result = [] then ⟨gs "No matches", st, [spawnEff]⟩
  else
    let lines := goSplitChar '\n' result
    let result :=
      if lines.length > 25 then
        joinNl (lines.take 25) ++ gs "\n" ++ colorGray ++ gs "+" ++
          natStr (lines.length - 25) ++ gs " more" ++ colorReset
      else result
    ⟨colorGreen ++ gs "Matched " ++ natStr lines.length ++ gs ":" ++ colorReset ++
      gs "\n" ++ result, st, [spawnEff]⟩

/-- `cmdList` (src/main.go lines 1059-1098): the directory enumeration
comes from `os.ReadDir`, outside the flat file model; its rendered
listing is an oracle input.  No gate, no mutation, no spawn. -/
def cmdList (path : GoStr) (st : St) (io : ToolOracle) : CmdOut :=
  ⟨io.ioText, st, []⟩

/-- `cmdTree` (src/main.go lines 1194-1239): recursive `os.ReadDir`
rendering, modeled as oracle text.  No gate, no mutation, no spawn. -/
def cmdTree (path : GoStr) (st : St) (io : ToolOracle) : CmdOut :=
  ⟨io.ioText, st, []⟩

/-- `cmdWrite` (src/main.go lines 1241-1264): parse `path|||content`,
gate on the mode (blocked in manual; y/N prompt in ask), snapshot for
undo, then create/overwrite the file. -/
def cmdWrite (home args : GoStr) (st : St) (io : ToolOracle) : CmdOut :=
  let parts := goSplitN args (gs "|||") 2
  if parts.length < 2 then ⟨gs "Error: format path|||content", st, []⟩
  else
    let path := goTrimSpace (parts.headD [])
    let content := parts.getD 1 []
    let fullPath := resolvePath home st.currentDir path
    if st.currentMode = ModeManual then ⟨colorRed ++ gs "[blocked]" ++ colorReset, st, []⟩
    else
      let promptMsg := colorYellow ++ gs "Write " ++ fullPath ++ gs "?" ++ colorReset ++ gs " [y/N] "
      let proceed : List Eff → CmdOut := fun effs =>
        let st1 := saveForUndo home path (gs "write") st
        ⟨colorGreen ++ gs "✓ Written: " ++ fullPath ++ gs " (" ++ natStr content.length ++
          gs " bytes)" ++ colorReset,
         { st1 with fs := fsWrite st1.fs fullPath content }, effs⟩
      if st.currentMode = ModeAsk then
        if goToLower (goTrimSpace io.askAnswer) ≠ gs "y" then
          ⟨gs "Cancelled", st, [Eff.prompt promptMsg]⟩
        else proceed [Eff.prompt promptMsg]
      else proceed []

/-- `cmdReplace` (src/main.go lines 1266-1303): parse
`path|||old|||new`, gate manual mode, read the file, fail with "Text not
found" when `old` is absent, otherwise (after the diff preview and, in
ask mode, a y/N prompt) snapshot and write back with the first
occurrence of `old` replaced. -/
def cmdReplace (home args : GoStr) (st : St) (io : ToolOracle) : CmdOut :=
  let parts := goSplitN args (gs "|||") 3
  if parts.length < 3 then ⟨gs "Error: format path|||old|||new", st, []⟩
  else
    let path := goTrimSpace (parts.headD [])
    let old := parts.getD 1 []
    let new := parts.getD 2 []
    let fullPath := resolvePath home st.currentDir path
    if st.currentMode = ModeManual then ⟨colorRed ++ gs "[blocked]" ++ colorReset, st, []⟩
    else
      match fsRead st.fs fullPath with
      | none => ⟨gs "Error: open " ++ fullPath ++ gs ": no such file or directory", st, []⟩
      | some content =>
        if !goContains content old then ⟨gs "Text not found", st, []⟩
        else
          let promptMsg := colorYellow ++ gs "Apply?" ++ colorReset ++ gs " [y/N] "
          let proceed : List Eff → CmdOut := fun effs =>
            let st1 := saveForUndo home path (gs "replace") st
            ⟨colorGreen ++ gs "✓ Replaced in " ++ fullPath ++ colorReset,
             { st1 with fs := fsWrite st1.fs fullPath (goReplaceFirst content old new) }, effs⟩
          if st.currentMode = ModeAsk then
            if goToLower (goTrimSpace io.askAnswer) ≠ gs "y" then
              ⟨gs "Cancelled", st, [Eff.prompt promptMsg]⟩
            else proceed [Eff.prompt promptMsg]
          else proceed []

/-- `cmdAppend` (src/main.go lines 1305-1322): parse `path|||content`,
gate manual mode — there is no ask-mode prompt in the source — then
snapshot and append, creating the file when absent. -/
def cmdAppend (home args : GoStr) (st : St) : CmdOut :=
  let parts := goSplitN args (gs "|||") 2
  if parts.length < 2 then ⟨gs "Error: format path|||content", st, []⟩
  else
    let path := goTrimSpace (parts.headD [])
    let content := parts.getD 1 []
    let fullPath := resolvePath home st.currentDir path
    if st.currentMode = ModeManual then ⟨colorRed ++ gs "[blocked]" ++ colorReset, st, []⟩
    else
      let st1 := saveForUndo home path (gs "append") st
      ⟨colorGreen ++ gs "✓ Appended to " ++ fullPath ++ colorReset,
       { st1 with fs := fsAppend st1.fs fullPath content }, []⟩

/-- `cmdGit` (src/main.go lines 1324-1332): no mode check at all — the
shell is spawned unconditionally and its combined output returned (the
error, if any, is discarded). -/
def cmdGit (args : GoStr) (st : St) (io : ToolOracle) : CmdOut :=
  let args := if args = [] then gs "status" else args
  ⟨io.procOut, st, [Eff.spawn (gs "sh -c git " ++ args)]⟩

/-- `cmdFetch` (src/main.go lines 1334-1350): read-only HTTP GET with
the body as oracle input; the source's URL-scheme defaulting, error
branch and 8000-byte truncation are embedded. -/
def cmdFetch (url : GoStr) (st : St) (io : ToolOracle) : CmdOut :=
  let url := if goHasPrefix url (gs "http") then url else gs "https://" ++ url
  match io.procErr with
  | some e => ⟨gs "Error: " ++ e, st, []⟩
  | none =>
    let body := io.ioText
    let content :=
      if body.length > 8000 then body.take 8000 ++ gs "\n... (truncated)" else body
    ⟨colorCyan ++ gs "URL: " ++ url ++ gs " (" ++ natStr body.length ++ gs " bytes)" ++
      colorReset ++ gs "\n" ++ content, st, []⟩

/-- `runPython` (src/main.go lines 881-892): ungated code execution —
the code is written to a temp file, `python3` is spawned, and the temp
file removed (the deferred `os.Remove`).  `os.TempDir()` is `/tmp`. -/
def runPython (code : GoStr) (st : St) (io : ToolOracle) : CmdOut :=
  let tmpFile := gs "/tmp/mytool_py.py"
  let st1 := { st with fs := fsRemove (fsWrite st.fs tmpFile code) tmpFile }
  let result :=
    match io.procErr with
    | none => io.procOut
    | some e => io.procOut ++ colorRed ++ gs "\n" ++ e ++ colorReset
  ⟨result, st1, [Eff.spawn (gs "python3 " ++ tmpFile)]⟩

/-- `runNode` (src/main.go lines 894-905): same shape as `runPython`
with `node` and `/tmp/mytool_js.js`. -/
def runNode (code : GoStr) (st : St) (io : ToolOracle) : CmdOut :=
  let tmpFile := gs "/tmp/mytool_js.js"
  let st1 := { st with fs := fsRemove (fsWrite st.fs tmpFile code) tmpFile }
  let result :=
    match io.procErr with
    | none => io.procOut
    | some e => io.procOut ++ colorRed ++ gs "\n" ++ e ++ colorReset
  ⟨result, st1, [Eff.spawn (gs "node " ++ tmpFile)]⟩

/-- `webSearch` (src/main.go lines 940-977): network call plus JSON
rendering, fully external — modeled as oracle text.  Read-only. -/
def webSearch (query : GoStr) (st : St) (io : ToolOracle) : CmdOut :=
  ⟨io.ioText, st, []⟩

/-- `analyzeImage` (src/main.go lines 909-936): reads an image file and
renders a base64 preview; display-only, modeled as oracle text. -/
def analyzeImage (path : GoStr) (st : St) (io : ToolOracle) : CmdOut :=
  ⟨io.ioText, st, []⟩

/-! ### Tool-call parsing and execution (src/main.go lines 1480-1549) -/

/-- The directive markers of the wire protocol. -/
def tagOpen : GoStr := gs "<tool>"
def tagClose : GoStr := gs "</tool>"

/-- The `switch toolName` dispatch inside `parseAndExecuteTools`
(src/main.go lines 1501-1543).  Unknown names yield a labeled
"Unknown tool" result; a `remember` argument without a colon leaves the
result empty, exactly as the source's uninitialized `result`. -/
def execTool (home toolName toolArg : GoStr) (st : St) (io : ToolOracle) : CmdOut :=
  if toolName = gs "read" then ⟨cmdRead home toolArg st, st, []⟩
  else if toolName = gs "ls" then cmdList toolArg st io
  else if toolName = gs "run" then cmdRun toolArg st io
  else if toolName = gs "find" then cmdFind toolArg st io
  else if toolName = gs "grep" then cmdGrep home toolArg st io
  else if toolName = gs "tree" then cmdTree toolArg st io
  else if toolName = gs "write" then cmdWrite home toolArg st io
  else if toolName = gs "replace" then cmdReplace home toolArg st io
  else if toolName = gs "append" then cmdAppend home toolArg st
  else if toolName = gs "git" then cmdGit toolArg st io
  else if toolName = gs "fetch" then cmdFetch toolArg st io
  else if toolName = gs "cd" then cmdCd home toolArg st io
  else if toolName = gs "python" then runPython toolArg st io
  else if toolName = gs "node" then runNode toolArg st io
  else if toolName = gs "search" then webSearch toolArg st io
  else if toolName = gs "image" then analyzeImage toolArg st io
  else if toolName = gs "remember" then
    let p := goSplitN toolArg (gs ":") 2
    if p.length = 2 then
      ⟨gs "Remembered: " ++ p.headD [],
       { st with memory := memSet st.memory (p.headD []) (p.getD 1 []) }, []⟩
    else ⟨[], st, []⟩
  else ⟨gs "Unknown tool: " ++ toolName, st, []⟩

/-- Output of `parseAndExecuteTools`: the directive-stripped visible
text, the labeled results in extraction order, the state after, and the
accumulated effect trace. -/
structure ExecOut where
  visible : GoStr
  results : List GoStr
  st : St
  effs : List Eff
deriving DecidableEq

/-- The scanning loop of `parseAndExecuteTools`: find the next `<tool>`;
if none, or if no `</tool>` follows it, stop (returning the remaining
text trimmed); otherwise split the body on the first colon into name and
argument (both trimmed), dispatch, label the result, cut the whole span
out and continue.  Each iteration consumes one `ToolOracle` for the
external inputs of that directive.

The loop is driven by fuel; every iteration removes a span of at least 7
characters from `response`, so the initial fuel `response.length + 1`
set by `parseAndExecuteTools` can never run out and the fuel-exhausted
base case is unreachable. -/
def parseLoop (home : GoStr) : Nat → List ToolOracle → GoStr → St → ExecOut
  | 0, _, response, st => ⟨goTrimSpace response, [], st, []⟩
  | fuel + 1, ios, response, st =>
    match goIndex response tagOpen with
    | none => ⟨goTrimSpace response, [], st, []⟩
    | some start =>
      match goIndex (response.drop start) tagClose with
      | none => ⟨goTrimSpace response, [], st, []⟩
      | some e =>
        let endPos := start + e
        let toolCall := (response.drop (start + 6)).take (endPos - (start + 6))
        let parts := goSplitN toolCall (gs ":") 2
        let toolName := goTrimSpace (parts.headD [])
        let toolArg := if parts.length > 1 then goTrimSpace (parts.getD 1 []) else []
        let io := ios.headD ⟨[], [], none, [], false⟩
        let out := execTool home toolName toolArg st io
        let rest := parseLoop home fuel (ios.drop 1)
          (response.take start ++ response.drop (endPos + 7)) out.st
        ⟨rest.visible, (gs "[" ++ toolName ++ gs "] " ++ out.result) :: rest.results,
         rest.st, out.effs ++ rest.effs⟩

/-- `parseAndExecuteTools` (src/main.go lines 1480-1549). -/
def parseAndExecuteTools (home : GoStr) (ios : List ToolOracle) (response : GoStr)
    (st : St) : ExecOut :=
  parseLoop home (response.length + 1) ios response st

/-! ### One turn of the interactive loop (src/main.go lines 1786-1826) -/

/-- A conversation history entry. -/
structure ChatMessage where
  role : GoStr
  content : GoStr
deriving DecidableEq

/-- Output of one chat turn: the history after the turn, the state
after tool execution, and the effect trace. -/
structure TurnOut where
  history : List ChatMessage
  st : St
  effs : List Eff
deriving DecidableEq

/-- One iteration of `runChatWithHistory`'s send/execute/summarize block
(src/main.go lines 1786-1826), for a chat input (after the out-of-scope
`processAtMentions` expansion).  `send1` and `send2` are the outcomes of
the two `sendStream` calls: `Except.error` is a transport failure, in
which case `sendStream` returns the empty string and the source discards
the error (`response, _ := sendStream(...)`).

The user message is appended before the request; the response is parsed
and its directives executed; with a non-empty result list the original
response turn and a synthetic "Results: ... Jelaskan singkat." user turn
are appended and the follow-up response is appended only when it is
non-empty; with no results the response is appended as the sole
assistant turn. -/
def chatTurn (home : GoStr) (history : List ChatMessage) (input : GoStr)
    (send1 : Except GoStr GoStr) (ios : List ToolOracle)
    (send2 : Except GoStr GoStr) (st : St) : TurnOut :=
  let history := history ++ [⟨gs "user", input⟩]
  let response := match send1 with | .ok s => s | .error _ => []
  let out := parseAndExecuteTools home ios response st
  if out.results.length > 0 then
    let history := history ++
      [⟨gs "assistant", response⟩,
       ⟨gs "user", gs "Results:\n" ++ joinNl out.results ++ gs "\n\nJelaskan singkat."⟩]
    let followUp := match send2 with | .ok s => s | .error _ => []
    if followUp ≠ [] then
      ⟨history ++ [⟨gs "assistant", followUp⟩], out.st, out.effs⟩
    else ⟨history, out.st, out.effs⟩
  else ⟨history ++ [⟨gs "assistant", response⟩], out.st, out.effs⟩

/-! ### Concrete fixtures for witnesses and counterexamples -/

/-- A home directory. -/
def homeA : GoStr := gs "/home/u"

/-- A state in Auto (unrestricted) mode with empty filesystem. -/
def stAuto : St :=
  { currentMode := ModeAuto, currentDir := gs "/w", undoStack := [], memory := [], fs := [] }

/-- The same state in Ask (ConfirmEach) mode. -/
def stAsk : St := { stAuto with currentMode := ModeAsk }

/-- The same state in Manual (Blocked) mode. -/
def stManual : St := { stAuto with currentMode := ModeManual }

/-- An oracle answering "n" at prompts, with benign subprocess output. -/
def oracleA : ToolOracle :=
  { askAnswer := gs "n", procOut := gs "ok", procErr := none, ioText := [], statIsDir := true }

/-- An arbitrary undo entry used as `getLastD` default and stack filler. -/
def uaA : UndoAction := { type := gs "file", path := gs "/w/x", content := gs "c", time := 0 }

/-- Auto-mode state whose filesystem has a file with empty content. -/
def stEmptyFile : St := { stAuto with fs := [(gs "/w/f", [])] }

/-- Auto-mode state whose filesystem has a file with content "old". -/
def stOldFile : St := { stAuto with fs := [(gs "/w/g", gs "old")] }

/-- Auto-mode state with a full (20-entry) undo ledger. -/
def stFullLedger : St := { stAuto with undoStack := List.replicate 20 uaA }

/-- Auto-mode state whose filesystem has a file with content "xAyAz". -/
def stReplaceFile : St := { stAuto with fs := [(gs "/w/r", gs "xAyAz")] }

/-! ### Supporting lemmas -/

theorem goHasPrefix_length {s pre : GoStr} (h : goHasPrefix s pre = true) :
    pre.length ≤ s.length := by
  induction s generalizing pre with
  | nil => cases pre with
    | nil => simp
    | cons b p => simp [goHasPrefix] at h
  | cons a t ih => cases pre with
    | nil => simp
    | cons b p =>
      simp only [goHasPrefix, Bool.and_eq_true] at h
      simpa using ih h.2

theorem goIndex_add_length_le {s sub : GoStr} {i : Nat}
    (h : goIndex s sub = some i) : i + sub.length ≤ s.length := by
  induction s generalizing i with
  | nil =>
    rw [goIndex] at h
    split at h
    · cases h
      have h2 := goHasPrefix_length (by assumption)
      simp only [List.length_nil] at h2 ⊢
      omega
    · simp at h
  | cons a t ih =>
    rw [goIndex] at h
    split at h
    · cases h
      have h2 := goHasPrefix_length (by assumption)
      omega
    · simp only [Option.map_eq_some'] at h
      obtain ⟨i', hi', rfl⟩ := h
      have := ih hi'
      simp only [List.length_cons]
      omega

theorem goIndex_hasPrefix_drop {s sub : GoStr} {i : Nat}
    (h : goIndex s sub = some i) : goHasPrefix (s.drop i) sub = true := by
  induction s generalizing i with
  | nil =>
    rw [goIndex] at h
    split at h
    · cases h; simpa using (by assumption)
    · simp at h
  | cons a t ih =>
    rw [goIndex] at h
    split at h
    · cases h; simpa using (by assumption)
    · simp only [Option.map_eq_some'] at h
      obtain ⟨i', hi', rfl⟩ := h
      simpa using ih hi'

theorem goIndex_min {s sub : GoStr} {i : Nat}
    (h : goIndex s sub = some i) :
    ∀ j, j < i → goHasPrefix (s.drop j) sub = false := by
  induction s generalizing i with
  | nil =>
    rw [goIndex] at h
    split at h
    · cases h; omega
    · simp at h
  | cons a t ih =>
    rw [goIndex] at h
    split at h
    · cases h; omega
    · simp only [Option.map_eq_some'] at h
      obtain ⟨i', hi', rfl⟩ := h
      intro j hj
      cases j with
      | zero =>
        rename_i hnp
        simp only [List.drop_zero]
        simp only [Bool.not_eq_true] at hnp
        exact hnp
      | succ j' => simpa using ih hi' j' (by omega)

theorem fsRead_fsWrite_self (fs : FS) (p c : GoStr) :
    fsRead (fsWrite fs p c) p = some c := by
  induction fs with
  | nil => simp [fsWrite, fsRead]
  | cons e t ih =>
    obtain ⟨k, v⟩ := e
    by_cases h : k = p <;> simp [fsWrite, fsRead, h, ih]

theorem fsRead_fsRemove_self (fs : FS) (p : GoStr) :
    fsRead (fsRemove fs p) p = none := by
  induction fs with
  | nil => simp [fsRemove, fsRead]
  | cons e t ih =>
    obtain ⟨k, v⟩ := e
    by_cases h : k = p <;> simp [fsRemove, fsRead, h, ih]

theorem saveForUndo_fs (home p d : GoStr) (st : St) :
    (saveForUndo home p d st).fs = st.fs := by
  simp only [saveForUndo]

theorem saveForUndo_currentDir (home p d : GoStr) (st : St) :
    (saveForUndo home p d st).currentDir = st.currentDir := by
  simp only [saveForUndo]

theorem saveForUndo_undoStack_ne_nil (home p d : GoStr) (st : St) :
    (saveForUndo home p d st).undoStack ≠ [] := by
  simp only [saveForUndo]
  split
  · rename_i hlen
    intro h
    have h2 := congrArg List.length h
    simp only [List.length_drop, List.length_append, List.length_singleton,
      List.length_nil] at h2 hlen
    omega
  · simp

theorem saveForUndo_getLastD (home p d : GoStr) (st : St) (a0 : UndoAction) :
    (saveForUndo home p d st).undoStack.getLastD a0 = snapAction home st p := by
  simp only [saveForUndo]
  split
  · rename_i hlen
    cases hstk : st.undoStack with
    | nil => rw [hstk] at hlen; simp at hlen
    | cons x xs =>
      simp only [List.cons_append, List.drop_succ_cons, List.drop_zero]
      exact List.getLastD_concat _ _ _
  · exact List.getLastD_concat _ _ _

/-! ### C1 — Blocked mode gating -/

/-- C1 (counterexample): the claim says every mutating-or-process-spawning
operation, git included, resolves to a visible "blocked" result in
Manual mode with no process spawned.  Executing the `git` operation in
Manual mode spawns the shell and returns the subprocess output with no
"blocked" marker. -/
theorem c1_counterexample :
    stManual.currentMode = ModeManual
    ∧ (cmdGit (gs "push") stManual oracleA).effs = [Eff.spawn (gs "sh -c git push")]
    ∧ goContains (cmdGit (gs "push") stManual oracleA).result (gs "blocked") = false := by
  decide

/-- C1 (amended): in Manual ("Blocked") mode, `run`, and — given
well-formed arguments — `write`, `replace` and `append` return a result
carrying the visible "[blocked]" marker and leave the state untouched
with no external effect; but `git`, `python` and `node` are not gated:
they spawn an external process regardless of the mode. -/
theorem c1_manual_mode_gating (home : GoStr) (st : St) (io : ToolOracle)
    (hm : st.currentMode = ModeManual) :
    (∀ c, c ≠ [] →
       cmdRun c st io = ⟨colorRed ++ gs "[blocked] Manual mode" ++ colorReset, st, []⟩)
    ∧ (∀ args p c, goSplitN args (gs "|||") 2 = [p, c] →
       cmdWrite home args st io = ⟨colorRed ++ gs "[blocked]" ++ colorReset, st, []⟩)
    ∧ (∀ args p a b, goSplitN args (gs "|||") 3 = [p, a, b] →
       cmdReplace home args st io = ⟨colorRed ++ gs "[blocked]" ++ colorReset, st, []⟩)
    ∧ (∀ args p c, goSplitN args (gs "|||") 2 = [p, c] →
       cmdAppend home args st = ⟨colorRed ++ gs "[blocked]" ++ colorReset, st, []⟩)
    ∧ (∀ args, args ≠ [] →
       cmdGit args st io = ⟨io.procOut, st, [Eff.spawn (gs "sh -c git " ++ args)]⟩)
    ∧ (∀ code, (runPython code st io).effs = [Eff.spawn (gs "python3 /tmp/mytool_py.py")])
    ∧ (∀ code, (runNode code st io).effs = [Eff.spawn (gs "node /tmp/mytool_js.js")]) := by
  refine ⟨?_, ?_, ?_, ?_, ?_, ?_, ?_⟩
  · intro c hc
    simp [cmdRun, hc, hm]
  · intro args p c hsplit
    simp [cmdWrite, hsplit, hm]
  · intro args p a b hsplit
    simp [cmdReplace, hsplit, hm]
  · intro args p c hsplit
    simp [cmdAppend, hsplit, hm]
  · intro args hargs
    simp [cmdGit, hargs]
  · intro code
    simp only [runPython]
    decide
  · intro code
    simp only [runNode]
    decide

/-- C1 (witness): the amended statement at concrete inputs. -/
theorem c1_witness :
    cmdRun (gs "ls") stManual oracleA
      = ⟨colorRed ++ gs "[blocked] Manual mode" ++ colorReset, stManual, []⟩
    ∧ cmdWrite homeA (gs "f|||x") stManual oracleA
      = ⟨colorRed ++ gs "[blocked]" ++ colorReset, stManual, []⟩
    ∧ cmdReplace homeA (gs "f|||a|||b") stManual oracleA
      = ⟨colorRed ++ gs "[blocked]" ++ colorReset, stManual, []⟩
    ∧ cmdAppend homeA (gs "f|||x") stManual
      = ⟨colorRed ++ gs "[blocked]" ++ colorReset, stManual, []⟩
    ∧ cmdGit (gs "status") stManual oracleA
      = ⟨oracleA.procOut, stManual, [Eff.spawn (gs "sh -c git status")]⟩
    ∧ (runPython (gs "print(1)") stManual oracleA).effs
      = [Eff.spawn (gs "python3 /tmp/mytool_py.py")]
    ∧ (runNode (gs "1") stManual oracleA).effs
      = [Eff.spawn (gs "node /tmp/mytool_js.js")] := by
  have h := c1_manual_mode_gating homeA stManual oracleA rfl
  exact ⟨h.1 _ (by decide), h.2.1 _ (gs "f") (gs "x") (by decide),
    h.2.2.1 _ (gs "f") (gs "a") (gs "b") (by decide),
    h.2.2.2.1 _ (gs "f") (gs "x") (by decide),
    h.2.2.2.2.1 _ (by decide), h.2.2.2.2.2.1 _, h.2.2.2.2.2.2 _⟩

/-! ### C2 — transport failure and conversation history -/

/-- C2 (counterexample): the claim says a transport-level failure leaves
the history unchanged.  On a failed request the source discards the
error and treats the response as empty, so the user message and an
empty assistant message are appended. -/
theorem c2_counterexample :
    (chatTurn homeA [] (gs "hi") (Except.error (gs "API error (500): boom")) []
        (Except.ok []) stAuto).history
      = [⟨gs "user", gs "hi"⟩, ⟨gs "assistant", []⟩]
    ∧ ([⟨gs "user", gs "hi"⟩, ⟨gs "assistant", []⟩] : List ChatMessage) ≠ [] := by
  decide

/-- C2 (amended): on a transport-level failure of the completion
request, the error is discarded (`response, _ := sendStream(...)`) and
the turn proceeds with an empty response: the user message and one
empty-content assistant message are appended to the history, no tool
runs, no external effect occurs, the state is unchanged, and the turn
returns normally so that the loop continues awaiting new input. -/
theorem c2_transport_failure (home input err : GoStr) (history : List ChatMessage)
    (ios : List ToolOracle) (send2 : Except GoStr GoStr) (st : St) :
    chatTurn home history input (Except.error err) ios send2 st
      = ⟨history ++ [⟨gs "user", input⟩, ⟨gs "assistant", []⟩], st, []⟩ := by
  show chatTurn home history input (Except.error err) ios send2 st = _
  simp [chatTurn, parseAndExecuteTools, parseLoop, goIndex, goHasPrefix, tagOpen, gs,
    goTrimSpace]

/-! ### C5 — parse with zero directive markers -/

/-- C5 (counterexample): the claim says an input with zero directive
markers is returned character-for-character as the visible text.  The
source applies `strings.TrimSpace`, so surrounding whitespace is
stripped. -/
theorem c5_counterexample :
    goContains (gs " indented  ") tagOpen = false
    ∧ (parseAndExecuteTools homeA [] (gs " indented  ") stAuto).results = []
    ∧ (parseAndExecuteTools homeA [] (gs " indented  ") stAuto).visible ≠ gs " indented  " := by
  decide

/-- C5 (amended): for every input containing no opening directive
marker, the parse executes nothing and returns the input with
surrounding whitespace trimmed (`strings.TrimSpace`) as the visible
text together with an empty directive-result list; inputs without
leading or trailing whitespace are returned unchanged. -/
theorem c5_no_marker_parse (home : GoStr) (ios : List ToolOracle) (response : GoStr)
    (st : St) (h : goIndex response tagOpen = none) :
    parseAndExecuteTools home ios response st
      = ⟨goTrimSpace response, [], st, []⟩ := by
  unfold parseAndExecuteTools
  simp [parseLoop, h]

/-- C5 (witness): the amended statement on a concrete marker-free input. -/
theorem c5_witness :
    parseAndExecuteTools homeA [] (gs " hello ") stAuto = ⟨gs "hello", [], stAuto, []⟩ :=
  c5_no_marker_parse homeA [] (gs " hello ") stAuto (by decide)

/-! ### C6 — unterminated opening marker -/

/-- C6 (counterexample): the claim says the entire input, including the
lone opening marker, stays in the visible text.  Surrounding whitespace
is trimmed by the final `strings.TrimSpace`, so an input with a leading
space is not preserved in full. -/
theorem c6_counterexample :
    goIndex (gs " <tool>read:f") tagOpen = some 1
    ∧ goIndex ((gs " <tool>read:f").drop 1) tagClose = none
    ∧ (parseAndExecuteTools homeA [] (gs " <tool>read:f") stAuto).results = []
    ∧ (parseAndExecuteTools homeA [] (gs " <tool>read:f") stAuto).visible
        ≠ gs " <tool>read:f" := by
  decide

/-- C6 (amended): an opening marker with no matching closing marker
anywhere after it stops the scan: no directive is produced and the
whole input — the lone opening marker included — is returned as the
visible text, modulo the trimming of surrounding whitespace by the
final `strings.TrimSpace`. -/
theorem c6_unterminated_marker (home : GoStr) (ios : List ToolOracle) (response : GoStr)
    (st : St) (s : Nat) (hopen : goIndex response tagOpen = some s)
    (hclose : goIndex (response.drop s) tagClose = none) :
    parseAndExecuteTools home ios response st
      = ⟨goTrimSpace response, [], st, []⟩ := by
  unfold parseAndExecuteTools
  simp [parseLoop, hopen, hclose]

/-- C6 (witness): the amended statement on a concrete unterminated
input; without surrounding whitespace the input survives unchanged,
opening marker included. -/
theorem c6_witness :
    parseAndExecuteTools homeA [] (gs "<tool>read:f") stAuto
      = ⟨gs "<tool>read:f", [], stAuto, []⟩ :=
  c6_unterminated_marker homeA [] (gs "<tool>read:f") stAuto 0 (by decide) (by decide)

/-! ### C4 — ConfirmEach (ask) mode -/

/-- C4 (counterexample): the claim says every mutating-or-executing
operation — append included — obtains an interactive confirmation in
Ask mode.  `cmdAppend` has no ask-mode prompt: in Ask mode it mutates
the file with an empty effect trace (no `Eff.prompt`), so no answer,
affirmative or not, is ever solicited. -/
theorem c4_counterexample :
    stAsk.currentMode = ModeAsk
    ∧ (cmdAppend homeA (gs "notes.txt|||x") stAsk).effs = []
    ∧ fsRead (cmdAppend homeA (gs "notes.txt|||x") stAsk).st.fs (gs "/w/notes.txt")
        = some (gs "x")
    ∧ fsRead stAsk.fs (gs "/w/notes.txt") = none := by
  decide

/-- C4 (amended): in Ask ("ConfirmEach") mode, `run`, `write` and
`replace` emit a y/N prompt and a non-affirmative answer cancels the
invocation with no mutation and no spawn; `append`, however, performs
its mutation without any prompt; the read-only `read` operation
proceeds without prompting and without touching the state. -/
theorem c4_ask_mode_gating (home : GoStr) (st : St) (io : ToolOracle)
    (hm : st.currentMode = ModeAsk)
    (hno : goToLower (goTrimSpace io.askAnswer) ≠ gs "y") :
    (∀ c, c ≠ [] → cmdRun c st io = ⟨gs "Cancelled", st,
       [Eff.prompt (colorYellow ++ gs "Run:" ++ colorReset ++ gs " " ++ c ++ gs " [y/N] ")]⟩)
    ∧ (∀ args p c, goSplitN args (gs "|||") 2 = [p, c] →
       cmdWrite home args st io = ⟨gs "Cancelled", st,
         [Eff.prompt (colorYellow ++ gs "Write " ++
           resolvePath home st.currentDir (goTrimSpace p) ++ gs "?" ++ colorReset ++
           gs " [y/N] ")]⟩)
    ∧ (∀ args p a b content, goSplitN args (gs "|||") 3 = [p, a, b] →
       fsRead st.fs (resolvePath home st.currentDir (goTrimSpace p)) = some content →
       goContains content a = true →
       cmdReplace home args st io = ⟨gs "Cancelled", st,
         [Eff.prompt (colorYellow ++ gs "Apply?" ++ colorReset ++ gs " [y/N] ")]⟩)
    ∧ (∀ args p c, goSplitN args (gs "|||") 2 = [p, c] →
       (cmdAppend home args st).effs = []
       ∧ fsRead (cmdAppend home args st).st.fs (resolvePath home st.currentDir (goTrimSpace p))
           = some ((fsRead st.fs (resolvePath home st.currentDir (goTrimSpace p))).getD [] ++ c))
    ∧ (∀ p, (execTool home (gs "read") p st io).effs = []
       ∧ (execTool home (gs "read") p st io).st = st) := by
  have hnm : st.currentMode ≠ ModeManual := by rw [hm]; decide
  refine ⟨?_, ?_, ?_, ?_, ?_⟩
  · intro c hc
    simp [cmdRun, hc, hm, hno]
    decide
  · intro args p c hsplit
    simp [cmdWrite, hsplit, hm, hno]
    decide
  · intro args p a b content hsplit hread hcont
    simp [cmdReplace, hsplit, hm, hno, hread, hcont]
    decide
  · intro args p c hsplit
    have hna : st.currentMode ≠ ModeManual := hnm
    simp only [cmdAppend, hsplit]
    simp only [List.length_cons, List.length_nil, Nat.lt_irrefl, if_false]
    rw [if_neg (by simpa using hna)]
    refine ⟨rfl, ?_⟩
    simp only [saveForUndo, fsAppend]
    exact fsRead_fsWrite_self _ _ _
  · intro p
    simp [execTool]

/-- C4 (witness): the amended statement at concrete inputs, with the
answer "n" at every prompt. -/
theorem c4_witness :
    cmdRun (gs "rm x") stAsk oracleA = ⟨gs "Cancelled", stAsk,
      [Eff.prompt (colorYellow ++ gs "Run:" ++ colorReset ++ gs " " ++ gs "rm x" ++ gs " [y/N] ")]⟩
    ∧ cmdWrite homeA (gs "f|||x") stAsk oracleA = ⟨gs "Cancelled", stAsk,
        [Eff.prompt (colorYellow ++ gs "Write " ++ gs "/w/f" ++ gs "?" ++ colorReset ++ gs " [y/N] ")]⟩
    ∧ (cmdAppend homeA (gs "f|||x") stAsk).effs = []
    ∧ fsRead (cmdAppend homeA (gs "f|||x") stAsk).st.fs (gs "/w/f") = some (gs "x")
    ∧ (execTool homeA (gs "read") (gs "f") stAsk oracleA).effs = [] := by
  have h := c4_ask_mode_gating homeA stAsk oracleA rfl (by decide)
  refine ⟨h.1 _ (by decide), h.2.1 _ (gs "f") (gs "x") (by decide), ?_, ?_, (h.2.2.2.2 (gs "f")).1⟩
  · exact (h.2.2.2.1 _ (gs "f") (gs "x") (by decide)).1
  · exact (h.2.2.2.1 _ (gs "f") (gs "x") (by decide)).2

/-! ### C9 — bounded undo ledger -/

/-- C9: the undo ledger never exceeds its capacity of 20 entries;
pushing onto a full ledger evicts the oldest entry (the head) and never
the newest, whose snapshot is always the last entry after the push; and
undoing with an empty ledger is not an error — it returns the
distinguishable "Nothing to undo" result and leaves the state as is. -/
theorem c9_undo_ledger_bounds (home p d : GoStr) (st : St) (a0 : UndoAction) :
    (st.undoStack.length ≤ 20 → (saveForUndo home p d st).undoStack.length ≤ 20)
    ∧ (st.undoStack.length = 20 →
       (saveForUndo home p d st).undoStack = st.undoStack.tail ++ [snapAction home st p])
    ∧ (saveForUndo home p d st).undoStack.getLastD a0 = snapAction home st p
    ∧ (st.undoStack = [] → doUndo st = (gs "Nothing to undo", st)) := by
  refine ⟨?_, ?_, saveForUndo_getLastD home p d st a0, ?_⟩
  · intro hle
    simp only [saveForUndo]
    split <;> rename_i hlen <;>
      simp only [List.length_drop, List.length_append, List.length_singleton] at hlen ⊢ <;>
      omega
  · intro h20
    simp only [saveForUndo]
    rw [if_pos (by simp [h20])]
    cases hstk : st.undoStack with
    | nil => rw [hstk] at h20; simp at h20
    | cons x xs => simp
  · intro hnil
    simp [doUndo, hnil]

/-- C9 (witness): the boundedness, FIFO-eviction and empty-undo clauses
at a concrete full ledger and a concrete empty one. -/
theorem c9_witness :
    (saveForUndo homeA (gs "f") (gs "write") stFullLedger).undoStack.length ≤ 20
    ∧ (saveForUndo homeA (gs "f") (gs "write") stFullLedger).undoStack
        = stFullLedger.undoStack.tail ++ [snapAction homeA stFullLedger (gs "f")]
    ∧ (saveForUndo homeA (gs "f") (gs "write") stAuto).undoStack.getLastD uaA
        = snapAction homeA stAuto (gs "f")
    ∧ doUndo stAuto = (gs "Nothing to undo", stAuto) := by
  have h1 := c9_undo_ledger_bounds homeA (gs "f") (gs "write") stFullLedger uaA
  have h2 := c9_undo_ledger_bounds homeA (gs "f") (gs "write") stAuto uaA
  exact ⟨h1.1 (by decide), h1.2.1 (by decide), h2.2.2.1, h2.2.2.2 rfl⟩

/-! ### C10 — undo restores the path resolved at snapshot time -/

/-- C10: a snapshot stores the absolute path obtained by resolving the
raw path against the working directory current at snapshot time;
`doUndo` applies its restoration to that stored path only, so changing
the current directory in between changes nothing about which file the
undo affects; and the change-directory operation itself touches neither
the undo ledger nor the filesystem. -/
theorem c10_undo_absolute_path (home p d newDir : GoStr) (st : St) (io : ToolOracle)
    (a0 : UndoAction) :
    ((saveForUndo home p d st).undoStack.getLastD a0).path
        = resolvePath home st.currentDir p
    ∧ doUndo { st with currentDir := newDir }
        = ((doUndo st).1, { (doUndo st).2 with currentDir := newDir })
    ∧ (cmdCd home p st io).st.undoStack = st.undoStack
    ∧ (cmdCd home p st io).st.fs = st.fs := by
  refine ⟨?_, ?_, ?_, ?_⟩
  · rw [saveForUndo_getLastD]
    rfl
  · simp only [doUndo]
    split
    · rfl
    · split <;> rfl
  · simp only [cmdCd]
    split <;> rfl
  · simp only [cmdCd]
    split <;> rfl

/-! ### C3 — undo round-trip for write -/

theorem auto_ne_manual : ¬ ModeAuto = ModeManual := by decide

theorem auto_ne_ask : ¬ ModeAuto = ModeAsk := by decide

/-- In Auto mode with a well-formed argument, `cmdWrite` snapshots and
then overwrites the resolved path. -/
theorem cmdWrite_auto_st (home args rawPath content : GoStr) (st : St) (io : ToolOracle)
    (hmode : st.currentMode = ModeAuto)
    (hsplit : goSplitN args (gs "|||") 2 = [rawPath, content]) :
    (cmdWrite home args st io).st
      = { saveForUndo home (goTrimSpace rawPath) (gs "write") st with
          fs := fsWrite st.fs (resolvePath home st.currentDir (goTrimSpace rawPath)) content } := by
  simp [cmdWrite, hsplit, hmode, auto_ne_manual, auto_ne_ask, saveForUndo_fs]

/-- C3 (counterexample): the claim says undo restores the prior content
byte-for-byte for every prior content, the empty string included.  A
file whose prior content is empty is snapshotted as `Content = ""`,
which `doUndo` interprets as "did not exist": after write + undo the
file is deleted instead of being restored empty. -/
theorem c3_counterexample :
    fsRead stEmptyFile.fs (gs "/w/f") = some []
    ∧ fsRead (doUndo (cmdWrite homeA (gs "f|||new") stEmptyFile oracleA).st).2.fs
        (gs "/w/f") = none := by
  decide

/-- C3 (amended): in Auto mode, writing to a previously-nonexistent
path and then undoing leaves the path nonexistent; writing to a path
whose prior content is a *nonempty* C and then undoing restores exactly
C; but when the prior content is the empty string, undo deletes the
file — the snapshot conflates empty content with nonexistence. -/
theorem c3_undo_roundtrip (home args rawPath content : GoStr) (st : St) (io : ToolOracle)
    (hmode : st.currentMode = ModeAuto)
    (hsplit : goSplitN args (gs "|||") 2 = [rawPath, content]) :
    (fsRead st.fs (resolvePath home st.currentDir (goTrimSpace rawPath)) = none →
       fsRead (doUndo (cmdWrite home args st io).st).2.fs
         (resolvePath home st.currentDir (goTrimSpace rawPath)) = none)
    ∧ (∀ C, C ≠ [] →
       fsRead st.fs (resolvePath home st.currentDir (goTrimSpace rawPath)) = some C →
       fsRead (doUndo (cmdWrite home args st io).st).2.fs
         (resolvePath home st.currentDir (goTrimSpace rawPath)) = some C)
    ∧ (fsRead st.fs (resolvePath home st.currentDir (goTrimSpace rawPath)) = some [] →
       fsRead (doUndo (cmdWrite home args st io).st).2.fs
         (resolvePath home st.currentDir (goTrimSpace rawPath)) = none) := by
  rw [cmdWrite_auto_st home args rawPath content st io hmode hsplit]
  have hne := saveForUndo_undoStack_ne_nil home (goTrimSpace rawPath) (gs "write") st
  have hlast : (saveForUndo home (goTrimSpace rawPath) (gs "write") st).undoStack.getLast?.getD
      ({ type := [], path := [], content := [], time := 0 } : UndoAction)
      = snapAction home st (goTrimSpace rawPath) := by
    simpa [List.getLastD_eq_getLast?] using
      saveForUndo_getLastD home (goTrimSpace rawPath) (gs "write") st ⟨[], [], [], 0⟩
  refine ⟨?_, ?_, ?_⟩
  · intro hnone
    simp [doUndo, hne, hlast, snapAction, hnone, fsRead_fsRemove_self]
  · intro C hC hsome
    simp [doUndo, hne, hlast, snapAction, hsome, hC, fsRead_fsWrite_self]
  · intro hempty
    simp [doUndo, hne, hlast, snapAction, hempty, fsRead_fsRemove_self]

/-- C3 (witness): the nonempty-prior-content and nonexistent-path
clauses of the amended statement, at concrete inputs. -/
theorem c3_witness :
    fsRead stOldFile.fs (gs "/w/g") = some (gs "old")
    ∧ fsRead (doUndo (cmdWrite homeA (gs "g|||new") stOldFile oracleA).st).2.fs
        (gs "/w/g") = some (gs "old")
    ∧ fsRead stAuto.fs (gs "/w/h") = none
    ∧ fsRead (doUndo (cmdWrite homeA (gs "h|||new") stAuto oracleA).st).2.fs
        (gs "/w/h") = none := by
  have h1 := c3_undo_roundtrip homeA (gs "g|||new") (gs "g") (gs "new") stOldFile oracleA
    rfl (by decide)
  have h2 := c3_undo_roundtrip homeA (gs "h|||new") (gs "h") (gs "new") stAuto oracleA
    rfl (by decide)
  exact ⟨by decide, h1.2.1 (gs "old") (by decide) (by decide), by decide, h2.1 (by decide)⟩

/-! ### C8 — replace: not-found outcome and first-occurrence-only -/

/-- C8: outside Manual mode, invoking `replace` on a file whose content
does not contain the old text returns the "Text not found" result and
leaves the whole state — filesystem and undo ledger — untouched; and in
Auto mode, when the old text does occur (first at position `i`), the
file is rewritten with exactly that first occurrence replaced: the
characters before `i` and after `i + |old|` are preserved, an
occurrence of `old` starts at `i`, and no occurrence starts earlier. -/
theorem c8_replace_behavior (home args rawPath old new : GoStr) (st : St) (io : ToolOracle)
    (hsplit : goSplitN args (gs "|||") 3 = [rawPath, old, new])
    (hm : st.currentMode ≠ ModeManual) :
    (∀ content, fsRead st.fs (resolvePath home st.currentDir (goTrimSpace rawPath)) = some content →
       goContains content old = false →
       cmdReplace home args st io = ⟨gs "Text not found", st, []⟩)
    ∧ (∀ content i, st.currentMode = ModeAuto →
       fsRead st.fs (resolvePath home st.currentDir (goTrimSpace rawPath)) = some content →
       goIndex content old = some i →
       (cmdReplace home args st io).st.fs
         = fsWrite st.fs (resolvePath home st.currentDir (goTrimSpace rawPath))
             (content.take i ++ new ++ content.drop (i + old.length))
       ∧ goHasPrefix (content.drop i) old = true
       ∧ (∀ j, j < i → goHasPrefix (content.drop j) old = false)) := by
  constructor
  · intro content hread hmiss
    simp [cmdReplace, hsplit, hm, hread, hmiss]
  · intro content i hauto hread hidx
    have hcont : goContains content old = true := by
      simp [goContains, hidx]
    refine ⟨?_, goIndex_hasPrefix_drop hidx, goIndex_min hidx⟩
    simp [cmdReplace, hsplit, hauto, auto_ne_manual, auto_ne_ask, hread, hcont,
      goReplaceFirst, hidx, saveForUndo_fs]

/-- C8 (witness): both clauses at concrete inputs — a miss on a file
that lacks the old text, and a hit on "xAyAz" replacing only the first
"A". -/
theorem c8_witness :
    cmdReplace homeA (gs "g|||zz|||q") stOldFile oracleA
      = ⟨gs "Text not found", stOldFile, []⟩
    ∧ (cmdReplace homeA (gs "r|||A|||B") stReplaceFile oracleA).st.fs
        = fsWrite stReplaceFile.fs (gs "/w/r") (gs "xByAz")
    ∧ goHasPrefix ((gs "xAyAz").drop 1) (gs "A") = true
    ∧ (∀ j, j < 1 → goHasPrefix ((gs "xAyAz").drop j) (gs "A") = false) := by
  have h1 := c8_replace_behavior homeA (gs "g|||zz|||q") (gs "g") (gs "zz") (gs "q")
    stOldFile oracleA (by decide) (by decide)
  have h2 := c8_replace_behavior homeA (gs "r|||A|||B") (gs "r") (gs "A") (gs "B")
    stReplaceFile oracleA (by decide) (by decide)
  have h2' := h2.2 (gs "xAyAz") 1 rfl (by decide) (by decide)
  exact ⟨h1.1 (gs "old") (by decide) (by decide), h2'.1.trans (by decide),
    h2'.2.1, h2'.2.2⟩

/-! ### C7 — history shape of a turn with tool calls -/

/-- C7 (counterexample): the claim says a turn with a non-empty
directive list always appends exactly two assistant entries.  When the
follow-up summary response is empty, the source skips the second
assistant append: the whole history after such a turn holds a single
assistant entry. -/
theorem c7_counterexample :
    (parseAndExecuteTools homeA [] (gs "<tool>zzz:1</tool>") stAuto).results ≠ []
    ∧ ((chatTurn homeA [] (gs "hi") (Except.ok (gs "<tool>zzz:1</tool>")) []
          (Except.ok []) stAuto).history.filter
        (fun m => m.role == gs "assistant")).length = 1 := by
  decide

/-- C7 (amended): a model turn whose executed directive list is
non-empty deterministically appends the user message, the original
(non-stripped) assistant turn and one synthetic user entry with the
labeled results; the summary assistant turn is appended only when the
follow-up completion text is non-empty — so the turn yields two
assistant entries when the summary text is non-empty and one when the
summary request fails or returns empty. -/
theorem c7_tool_turn_history (home input : GoStr) (history : List ChatMessage)
    (ios : List ToolOracle) (response : GoStr) (send2 : Except GoStr GoStr) (st : St)
    (hres : (parseAndExecuteTools home ios response st).results ≠ []) :
    chatTurn home history input (Except.ok response) ios send2 st
      = ⟨history ++
          [⟨gs "user", input⟩, ⟨gs "assistant", response⟩,
           ⟨gs "user", gs "Results:\n" ++
              joinNl (parseAndExecuteTools home ios response st).results ++
              gs "\n\nJelaskan singkat."⟩] ++
          (match send2 with
           | .ok s => if s = [] then [] else [⟨gs "assistant", s⟩]
           | .error _ => []),
         (parseAndExecuteTools home ios response st).st,
         (parseAndExecuteTools home ios response st).effs⟩ := by
  have hlen : 0 < (parseAndExecuteTools home ios response st).results.length := by
    cases h : (parseAndExecuteTools home ios response st).results
    · exact absurd h hres
    · simp
  simp only [chatTurn]
  rw [if_pos hlen]
  cases send2 with
  | error e => simp
  | ok s =>
    by_cases hs : s = []
    · subst hs
      simp
    · simp [hs]

/-- C7 (witness): the amended statement on a concrete turn carrying one
directive and a non-empty summary response. -/
theorem c7_witness :
    chatTurn homeA [] (gs "hi") (Except.ok (gs "<tool>zzz:1</tool>")) []
        (Except.ok (gs "done")) stAuto
      = ⟨[⟨gs "user", gs "hi"⟩, ⟨gs "assistant", gs "<tool>zzz:1</tool>"⟩,
          ⟨gs "user", gs "Results:\n[zzz] Unknown tool: zzz\n\nJelaskan singkat."⟩,
          ⟨gs "assistant", gs "done"⟩], stAuto, []⟩ := by
  have h := c7_tool_turn_history homeA (gs "hi") [] [] (gs "<tool>zzz:1</tool>")
    (Except.ok (gs "done")) stAuto (by decide)
  exact h.trans (by decide)
